import Mathlib

/-!
A shallow embedding of the binary codec core of a Stacks transaction library:
addresses, principals, length-prefixed strings, memos, asset identifiers,
length-prefixed lists and transaction payload variants, together with theorems
checking the specification's claims against it.  Byte buffers and JavaScript
strings are modelled as lists of naturals (the bytes they denote); thrown
exceptions are modelled with `Except`.
-/

/-- Modelled from the spec: `MAX_STRING_LENGTH_BYTES` from the constants module
(not under src) — the default maximum byte length for length-prefixed strings;
the spec bounds contract names to under 128 bytes through this default. -/
def MAX_STRING_LENGTH_BYTES : Nat := 128

/-- Modelled from the spec: `MEMO_MAX_LENGTH_BYTES` from the constants module
(not under src) — the fixed memo width; the spec leaves the numeric value
unstated, instantiated here as 34 bytes. -/
def MEMO_MAX_LENGTH_BYTES : Nat := 34

/-- Modelled from the spec: `COINBASE_BUFFER_LENGTH_BYTES` from the constants
module (not under src) — the fixed coinbase buffer width, instantiated here as
32 bytes; the claims treat it symbolically. -/
def COINBASE_BUFFER_LENGTH_BYTES : Nat := 32

/-- Modelled from the spec: the error taxonomy of §7 of the spec.  Construction
and decode failures are thrown exceptions in the source, modelled as `Except`
errors with one constructor per distinct thrown message. -/
inductive Err where
  | stringTooLong
  | memoTooLong
  | coinbaseLength
  | unexpectedEof
  | invalidPrincipalTag
  | unknownPayloadTag
  | emptyPublicKeys
  | invalidNumberOfKeysOrSigs
  | uncompressedKey
  | invalidHashMode
  deriving DecidableEq, Repr

/-- Modelled from the spec: `intToHexString` followed by hex decoding in the
buffer writer (utils module, not under src) — a big-endian unsigned integer
occupying exactly `width` bytes.  All uses reached by the claims stay below
`256 ^ width`. -/
def natToBytesBE (width n : Nat) : List Nat :=
  match width with
  | 0 => []
  | w + 1 => natToBytesBE w (n / 256) ++ [n % 256]

/-- Modelled from the spec: `hexStringToInt` applied to a buffer's hex form
(utils module, not under src) — big-endian bytes to an unsigned integer. -/
def bytesToNat (bs : List Nat) : Nat :=
  bs.foldl (fun acc b => acc * 256 + b) 0

/-- Modelled from the spec: `BufferReader.readBuffer` (§4.2, binary reader
module not under src) — yield the next `n` bytes and the remaining input,
failing with `UnexpectedEof` when fewer than `n` bytes remain. -/
def readBytes (n : Nat) (input : List Nat) : Except Err (List Nat × List Nat) :=
  if n ≤ input.length then .ok (input.take n, input.drop n) else .error .unexpectedEof

/-- Modelled from the spec: the byte-length validator of §4.3 (utils module,
not under src), shared by `lengthPrefixedString` and `memoString` in
src/src/types.ts.  "Exceeds" is read as strictly-greater: the reading forced by
the memo boundary of §8 (content of exactly the ceiling is accepted), since
both call sites in src use this single validator.  An empty string (falsy in
JavaScript) is never reported as exceeding. -/
def exceedsMaxLengthBytes (content : List Nat) (maxLengthBytes : Nat) : Bool :=
  if content.isEmpty then false else decide (content.length > maxLengthBytes)

/-- JavaScript `x || d` applied to an optional numeric argument: both a missing
argument and `0` fall back to the default. -/
def orDefault (x : Option Nat) (d : Nat) : Nat :=
  match x with
  | none => d
  | some n => if n = 0 then d else n

/-- Modelled from the spec: `rightPadHexToLength` (§4.3, utils module not under
src) — grow a byte sequence to the target width with zero bytes, never
truncating. -/
def rightPadBytesToLength (bs : List Nat) (target : Nat) : List Nat :=
  bs ++ List.replicate (target - bs.length) 0

/-- `Address` from src/src/types.ts: a version byte and the 20-byte hash (a hex
string in the source, modelled as the bytes it denotes).  The constant `type`
discriminant of the interface is carried by the `StacksMessage` variant. -/
structure Address where
  version : Nat
  data : List Nat
  deriving DecidableEq, Repr

/-- `serializeAddress` from src/src/types.ts: one version byte, then the hash
bytes. -/
def serializeAddress (a : Address) : List Nat :=
  natToBytesBE 1 a.version ++ a.data

/-- `deserializeAddress` from src/src/types.ts: read one version byte, then the
20 hash bytes. -/
def deserializeAddress (input : List Nat) : Except Err (Address × List Nat) := do
  let (vb, r1) ← readBytes 1 input
  let (db, r2) ← readBytes 20 r1
  .ok (⟨bytesToNat vb, db⟩, r2)

/-- `LengthPrefixedString` from src/src/types.ts. -/
structure LengthPrefixedString where
  content : List Nat
  lengthPrefixBytes : Nat
  maxLengthBytes : Nat
  deriving DecidableEq, Repr

/-- `lengthPrefixedString` from src/src/types.ts: defaults the prefix width to
1 and the maximum to `MAX_STRING_LENGTH_BYTES` (JavaScript `||`), and rejects
content whose byte length exceeds the maximum. -/
def lengthPrefixedString (content : List Nat) (lengthPrefixBytes maxLengthBytes : Option Nat) :
    Except Err LengthPrefixedString :=
  let prefixLength := orDefault lengthPrefixBytes 1
  let maxLength := orDefault maxLengthBytes MAX_STRING_LENGTH_BYTES
  if exceedsMaxLengthBytes content maxLength then .error .stringTooLong
  else .ok ⟨content, prefixLength, maxLength⟩

/-- `serializeLPString` from src/src/types.ts: the content byte length as a
big-endian integer of `lengthPrefixBytes` bytes, then the content bytes. -/
def serializeLPString (lps : LengthPrefixedString) : List Nat :=
  natToBytesBE lps.lengthPrefixBytes lps.content.length ++ lps.content

/-- `deserializeLPString` from src/src/types.ts: reads a single length byte,
then that many content bytes, and rebuilds through the constructor — passing
the byte length just read as the new `lengthPrefixBytes` and defaulting the
maximum. -/
def deserializeLPString (input : List Nat) : Except Err (LengthPrefixedString × List Nat) := do
  let (lb, r1) ← readBytes 1 input
  let len := bytesToNat lb
  let (cb, r2) ← readBytes len r1
  let lps ← lengthPrefixedString cb (some len) none
  .ok (lps, r2)

/-- `codeBodyString` from src/src/types.ts: a length-prefixed string with a
4-byte prefix and a 100000-byte maximum. -/
def codeBodyString (content : List Nat) : Except Err LengthPrefixedString :=
  lengthPrefixedString content (some 4) (some 100000)

/-- `MemoString` from src/src/types.ts. -/
structure MemoString where
  content : List Nat
  deriving DecidableEq, Repr

/-- `memoString` from src/src/types.ts: rejects non-empty content longer than
`MEMO_MAX_LENGTH_BYTES` (the emptiness guard mirrors the JavaScript truthiness
test on the content string). -/
def memoString (content : List Nat) : Except Err MemoString :=
  if !content.isEmpty && exceedsMaxLengthBytes content MEMO_MAX_LENGTH_BYTES then
    .error .memoTooLong
  else .ok ⟨content⟩

/-- `serializeMemoString` from src/src/types.ts: the content right-padded with
zero bytes to the fixed memo width. -/
def serializeMemoString (m : MemoString) : List Nat :=
  rightPadBytesToLength m.content MEMO_MAX_LENGTH_BYTES

/-- `deserializeMemoString` from src/src/types.ts: always consumes exactly the
fixed memo width and keeps the raw bytes as the content, padding included. -/
def deserializeMemoString (input : List Nat) : Except Err (MemoString × List Nat) := do
  let (cb, r1) ← readBytes MEMO_MAX_LENGTH_BYTES input
  .ok (⟨cb⟩, r1)

/-- Modelled from the spec: the standard-principal discriminant from the
constants module (not under src).  The two principal discriminants are one-byte
tags distinct from the `StacksMessageType` values 0–3 so the shared dispatcher
can branch on them; instantiated as 5 and 6. -/
def PrincipalTypeStandard : Nat := 5

/-- Modelled from the spec: the contract-principal discriminant from the
constants module (not under src); see `PrincipalTypeStandard`. -/
def PrincipalTypeContract : Nat := 6

/-- `Principal` from src/src/types.ts: a standalone address, or an address plus
a contract name. -/
inductive Principal where
  | standard (address : Address)
  | contract (address : Address) (contractName : LengthPrefixedString)
  deriving DecidableEq, Repr

/-- `serializePrincipal` from src/src/types.ts: the discriminant byte, the
address, then the contract name only for the contract variant. -/
def serializePrincipal : Principal → List Nat
  | .standard a => PrincipalTypeStandard :: serializeAddress a
  | .contract a n => PrincipalTypeContract :: (serializeAddress a ++ serializeLPString n)

/-- `deserializePrincipal` from src/src/types.ts: read and validate the
discriminant, read the address, then the contract name for the contract
variant. -/
def deserializePrincipal (input : List Nat) : Except Err (Principal × List Nat) := do
  let (tb, r1) ← readBytes 1 input
  let t := bytesToNat tb
  if t = PrincipalTypeStandard then do
    let (a, r2) ← deserializeAddress r1
    .ok (.standard a, r2)
  else if t = PrincipalTypeContract then do
    let (a, r2) ← deserializeAddress r1
    let (n, r3) ← deserializeLPString r2
    .ok (.contract a n, r3)
  else .error .invalidPrincipalTag

/-- The data fields of `AssetInfo` from src/src/types.ts. -/
structure AssetInfoData where
  address : Address
  contractName : LengthPrefixedString
  assetName : LengthPrefixedString
  deriving DecidableEq, Repr

/-- `serializeAssetInfo` from src/src/types.ts: the address, then the two
length-prefixed names. -/
def serializeAssetInfo (info : AssetInfoData) : List Nat :=
  serializeAddress info.address ++ serializeLPString info.contractName ++
    serializeLPString info.assetName

/-- `deserializeAssetInfo` from src/src/types.ts: address, contract name, asset
name, in that order; the result carries the `type` discriminant. -/
def deserializeAssetInfo (input : List Nat) : Except Err (AssetInfoData × List Nat) := do
  let (a, r1) ← deserializeAddress input
  let (cn, r2) ← deserializeLPString r1
  let (an, r3) ← deserializeLPString r2
  .ok (⟨a, cn, an⟩, r3)

/-- `StacksMessage` from src/src/types.ts.  Each variant's constant `type`
discriminant is implied by the variant itself; the AssetInfo variant
additionally records whether the JavaScript object actually carries the `type`
property, because the `assetInfo` factory omits it while the `AssetInfo`
interface and `deserializeAssetInfo` include it. -/
inductive StacksMessage where
  | addrMsg (a : Address)
  | principalMsg (p : Principal)
  | lpsMsg (s : LengthPrefixedString)
  | memoMsg (m : MemoString)
  | assetMsg (hasTypeField : Bool) (info : AssetInfoData)
  deriving DecidableEq, Repr

/-- `serializeStacksMessage` from src/src/types.ts: a switch on the `type`
property with no default case; a message whose `type` property is absent
matches no case and the function returns `undefined` (`none` here). -/
def serializeStacksMessage : StacksMessage → Option (List Nat)
  | .addrMsg a => some (serializeAddress a)
  | .principalMsg p => some (serializePrincipal p)
  | .lpsMsg s => some (serializeLPString s)
  | .memoMsg m => some (serializeMemoString m)
  | .assetMsg true info => some (serializeAssetInfo info)
  | .assetMsg false _ => none

/-- `assetInfo` from src/src/types.ts: builds the record from the decoded
address and the two length-prefixed names, but omits the `type` discriminant
property.  The external base32-check address decoder is a parameter. -/
def assetInfo (c32decode : List Nat → Nat × List Nat)
    (addressString contractName assetName : List Nat) : Except Err StacksMessage := do
  let cn ← lengthPrefixedString contractName none none
  let an ← lengthPrefixedString assetName none none
  .ok (.assetMsg false ⟨⟨(c32decode addressString).1, (c32decode addressString).2⟩, cn, an⟩)

/-- `LengthPrefixedList` from src/src/types.ts. -/
structure LengthPrefixedList where
  lengthPrefixBytes : Nat
  values : List StacksMessage
  deriving DecidableEq, Repr

/-- `lengthPrefixedList` from src/src/types.ts: the prefix width defaults to 4
(JavaScript `||`). -/
def lengthPrefixedList (values : List StacksMessage) (lengthPrefixBytes : Option Nat) :
    LengthPrefixedList :=
  ⟨orDefault lengthPrefixBytes 4, values⟩

/-- The element-kind argument of `deserializeLengthPrefixedList`
(`StacksMessageType | PrincipalType` in the source). -/
inductive ListElemType where
  | addressT
  | lpStringT
  | memoT
  | assetT
  | standardT
  | contractT
  deriving DecidableEq, Repr

/-- One iteration of the loop body of `deserializeLengthPrefixedList` from
src/src/types.ts.  The source's switch has no `break` statements, so execution
falls through from the matching case to the end of the switch: the matched kind
is decoded and pushed, and then so is one value of every kind whose case is
listed below it (length-prefixed string, memo string, asset info, principal, in
that order). -/
def deserializeListIteration (t : ListElemType) (input : List Nat) :
    Except Err (List StacksMessage × List Nat) :=
  match t with
  | .addressT => do
    let (a, r1) ← deserializeAddress input
    let (s, r2) ← deserializeLPString r1
    let (m, r3) ← deserializeMemoString r2
    let (ai, r4) ← deserializeAssetInfo r3
    let (p, r5) ← deserializePrincipal r4
    .ok ([.addrMsg a, .lpsMsg s, .memoMsg m, .assetMsg true ai, .principalMsg p], r5)
  | .lpStringT => do
    let (s, r2) ← deserializeLPString input
    let (m, r3) ← deserializeMemoString r2
    let (ai, r4) ← deserializeAssetInfo r3
    let (p, r5) ← deserializePrincipal r4
    .ok ([.lpsMsg s, .memoMsg m, .assetMsg true ai, .principalMsg p], r5)
  | .memoT => do
    let (m, r3) ← deserializeMemoString input
    let (ai, r4) ← deserializeAssetInfo r3
    let (p, r5) ← deserializePrincipal r4
    .ok ([.memoMsg m, .assetMsg true ai, .principalMsg p], r5)
  | .assetT => do
    let (ai, r4) ← deserializeAssetInfo input
    let (p, r5) ← deserializePrincipal r4
    .ok ([.assetMsg true ai, .principalMsg p], r5)
  | .standardT => do
    let (p, r5) ← deserializePrincipal input
    .ok ([.principalMsg p], r5)
  | .contractT => do
    let (p, r5) ← deserializePrincipal input
    .ok ([.principalMsg p], r5)

/-- The counted loop of `deserializeLengthPrefixedList` from src/src/types.ts:
run the (fall-through) body once per counted element, accumulating the pushed
values in order. -/
def deserializeListLoop (t : ListElemType) :
    Nat → List Nat → Except Err (List StacksMessage × List Nat)
  | 0, input => .ok ([], input)
  | k + 1, input => do
    let (xs, r1) ← deserializeListIteration t input
    let (ys, r2) ← deserializeListLoop t k r1
    .ok (xs ++ ys, r2)

/-- `deserializeLengthPrefixedList` from src/src/types.ts: read the big-endian
count occupying `lengthPrefixBytes` bytes, run the loop body that many times,
and wrap the accumulated values through the `lengthPrefixedList` factory. -/
def deserializeLengthPrefixedList (lengthPrefixBytes : Nat) (t : ListElemType)
    (input : List Nat) : Except Err (LengthPrefixedList × List Nat) := do
  let (cb, r1) ← readBytes lengthPrefixBytes input
  let (vs, r2) ← deserializeListLoop t (bytesToNat cb) r1
  .ok (lengthPrefixedList vs (some lengthPrefixBytes), r2)

/-- Modelled from the spec: `StacksPublicKey` from the keys module (not under
src) — the key bytes together with its compressed-form predicate, both kept
abstract. -/
structure StacksPublicKey where
  data : List Nat
  compressed : Bool
  deriving DecidableEq, Repr

/-- `AddressHashMode` from the constants module; the four hash modes named in
src/src/types.ts. -/
inductive AddressHashMode where
  | serializeP2PKH
  | serializeP2SH
  | serializeP2WPKH
  | serializeP2WSH
  deriving DecidableEq, Repr

/-- `fromPublicKeys` from src/src/types.ts.  The external public-key-hash
routine (`hash_p2pkh` in the utils module, not under src) is a parameter.
Checks in source order: non-empty key set; for the single-signature hash modes
(P2PKH, P2WPKH) exactly one key and exactly one required signature; for the
witness hash modes (P2WPKH, P2WSH) every key compressed; finally the switch
implements only P2PKH and otherwise fails with the unsupported-hash-mode
error. -/
def fromPublicKeys (hashP2pkh : List Nat → List Nat) (version : Nat)
    (hashMode : AddressHashMode) (numSigs : Nat) (publicKeys : List StacksPublicKey) :
    Except Err Address :=
  if publicKeys.length = 0 then .error .emptyPublicKeys
  else if (hashMode = .serializeP2PKH ∨ hashMode = .serializeP2WPKH) ∧
      (publicKeys.length ≠ 1 ∨ numSigs ≠ 1) then .error .invalidNumberOfKeysOrSigs
  else if (hashMode = .serializeP2WPKH ∨ hashMode = .serializeP2WSH) ∧
      publicKeys.any (fun k => ! k.compressed) then .error .uncompressedKey
  else match hashMode with
    | .serializeP2PKH => .ok ⟨version, hashP2pkh (publicKeys.headD ⟨[], false⟩).data⟩
    | _ => .error .invalidHashMode

/-- Modelled from the spec: the TokenTransfer payload kind tag from the
constants module (not under src); the five kind tags are one-byte discriminants
instantiated in declaration order. -/
def PayloadTypeTokenTransfer : Nat := 0

/-- Modelled from the spec: the SmartContract payload kind tag; see
`PayloadTypeTokenTransfer`. -/
def PayloadTypeSmartContract : Nat := 1

/-- Modelled from the spec: the ContractCall payload kind tag; see
`PayloadTypeTokenTransfer`. -/
def PayloadTypeContractCall : Nat := 2

/-- Modelled from the spec: the PoisonMicroblock payload kind tag; see
`PayloadTypeTokenTransfer`. -/
def PayloadTypePoisonMicroblock : Nat := 3

/-- Modelled from the spec: the Coinbase payload kind tag; see
`PayloadTypeTokenTransfer`. -/
def PayloadTypeCoinbase : Nat := 4

/-- Modelled from the spec: Clarity values are an opaque external codec (§1,
§6 of the spec); a value is represented by the bytes its external serializer
produces for it. -/
abbrev ClarityValue := List Nat

/-- Modelled from the spec: the external Clarity-value serializer, opaque
(`serializeOne(value) -> bytes`); with values represented by their bytes it is
the identity. -/
def serializeCV (v : ClarityValue) : List Nat := v

/-- `Payload` from src/unnamed/part_001: the five transaction payload
variants. -/
inductive Payload where
  | tokenTransfer (recipientAddress : Address) (amount : Nat) (memo : MemoString)
  | contractCall (contractAddress : Address) (contractName : LengthPrefixedString)
      (functionName : LengthPrefixedString) (functionArgs : List ClarityValue)
  | smartContract (contractName : LengthPrefixedString) (codeBody : LengthPrefixedString)
  | poisonMicroblock
  | coinbase (coinbaseBuffer : List Nat)
  deriving DecidableEq, Repr

/-- `tokenTransferPayload` from src/unnamed/part_001: decodes the recipient via
the external address decoder (a parameter here) and defaults a missing or empty
memo argument to the empty memo (JavaScript truthiness). -/
def tokenTransferPayload (c32decode : List Nat → Nat × List Nat)
    (recipientAddress : List Nat) (amount : Nat) (memo : Option (List Nat)) :
    Except Err Payload := do
  let m ← match memo with
    | some s => if s.isEmpty then memoString [] else memoString s
    | none => memoString []
  .ok (.tokenTransfer ⟨(c32decode recipientAddress).1, (c32decode recipientAddress).2⟩ amount m)

/-- `smartContractPayload` from src/unnamed/part_001.  Note: the source passes
`contractName`, not `codeBody`, to `codeBodyString`; the `codeBody` argument is
unused. -/
def smartContractPayload (contractName codeBody : List Nat) : Except Err Payload := do
  let cn ← lengthPrefixedString contractName none none
  let cb ← codeBodyString contractName
  .ok (.smartContract cn cb)

/-- `poisonPayload` from src/unnamed/part_001. -/
def poisonPayload : Payload := .poisonMicroblock

/-- `coinbasePayload` from src/unnamed/part_001: rejects a buffer whose byte
length differs from `COINBASE_BUFFER_LENGTH_BYTES`. -/
def coinbasePayload (coinbaseBuffer : List Nat) : Except Err Payload :=
  if coinbaseBuffer.length ≠ COINBASE_BUFFER_LENGTH_BYTES then .error .coinbaseLength
  else .ok (.coinbase coinbaseBuffer)

/-- `serializePayload` from src/unnamed/part_001: the kind tag byte, then the
kind-specific fields in source order.  Component messages go through the
`serializeStacksMessage` dispatcher; every message built here carries its
`type` discriminant, so the dispatcher's `undefined` branch never fires and the
`Option.getD []` fallback is unreachable.  The PoisonMicroblock case is an
explicit TODO in the source and appends nothing after the tag. -/
def serializePayload : Payload → List Nat
  | .tokenTransfer a amt m =>
    PayloadTypeTokenTransfer ::
      (((serializeStacksMessage (.addrMsg a)).getD []) ++ natToBytesBE 8 amt ++
        ((serializeStacksMessage (.memoMsg m)).getD []))
  | .contractCall a cn fn args =>
    PayloadTypeContractCall ::
      (((serializeStacksMessage (.addrMsg a)).getD []) ++
        ((serializeStacksMessage (.lpsMsg cn)).getD []) ++
        ((serializeStacksMessage (.lpsMsg fn)).getD []) ++
        natToBytesBE 4 args.length ++ (args.map serializeCV).flatten)
  | .smartContract cn cb =>
    PayloadTypeSmartContract ::
      (((serializeStacksMessage (.lpsMsg cn)).getD []) ++
        ((serializeStacksMessage (.lpsMsg cb)).getD []))
  | .poisonMicroblock => [PayloadTypePoisonMicroblock]
  | .coinbase b => PayloadTypeCoinbase :: b

/-- Modelled from the spec: the payload decoder is not under src; per §4.6 it
reads the one-byte kind tag, validates it, and then reads the kind-specific
fields in fixed order.  Only the TokenTransfer branch is needed by the claims:
the address, the 8-byte big-endian amount, then the memo. -/
def deserializeTokenTransferPayload (input : List Nat) :
    Except Err (Payload × List Nat) := do
  let (tb, r0) ← readBytes 1 input
  if bytesToNat tb = PayloadTypeTokenTransfer then do
    let (a, r1) ← deserializeAddress r0
    let (ab, r2) ← readBytes 8 r1
    let (m, r3) ← deserializeMemoString r2
    .ok (.tokenTransfer a (bytesToNat ab) m, r3)
  else .error .unknownPayloadTag

/-! ### Helper lemmas about the reader and the serializers -/

theorem readBytes_exact (xs ys : List Nat) : readBytes xs.length (xs ++ ys) = .ok (xs, ys) := by
  unfold readBytes
  rw [if_pos (by simp), List.take_left, List.drop_left]

theorem readBytes_one (v : Nat) (rest : List Nat) : readBytes 1 (v :: rest) = .ok ([v], rest) :=
  readBytes_exact [v] rest

theorem bytesToNat_one (b : Nat) : bytesToNat [b] = b := by
  simp [bytesToNat]

theorem deserializeAddress_append (v : Nat) (d rest : List Nat) (hv : v < 256)
    (hd : d.length = 20) :
    deserializeAddress (serializeAddress ⟨v, d⟩ ++ rest) = .ok (⟨v, d⟩, rest) := by
  have h1 : serializeAddress ⟨v, d⟩ = v :: d := by
    simp [serializeAddress, natToBytesBE, Nat.mod_eq_of_lt hv]
  have h2 : readBytes 20 (d ++ rest) = .ok (d, rest) := by
    rw [← hd]; exact readBytes_exact d rest
  rw [h1]
  simp [deserializeAddress, readBytes_one, h2, bytesToNat_one, Bind.bind, Except.bind]

theorem addr_roundtrip (a : Address) (hv : a.version < 256) (hd : a.data.length = 20) :
    deserializeAddress (serializeAddress a) = .ok (a, []) := by
  have h := deserializeAddress_append a.version a.data [] hv hd
  rw [List.append_nil] at h
  exact h

theorem deserializeLPString_append (content rest : List Nat) (mx : Nat)
    (h1 : 0 < content.length) (h2 : content.length ≤ MAX_STRING_LENGTH_BYTES) :
    deserializeLPString (serializeLPString ⟨content, 1, mx⟩ ++ rest) =
      .ok (⟨content, content.length, MAX_STRING_LENGTH_BYTES⟩, rest) := by
  have hlt : content.length < 256 := by
    have : MAX_STRING_LENGTH_BYTES < 256 := by norm_num [MAX_STRING_LENGTH_BYTES]
    omega
  have hs : serializeLPString ⟨content, 1, mx⟩ = content.length :: content := by
    simp [serializeLPString, natToBytesBE, Nat.mod_eq_of_lt hlt]
  have hr : readBytes content.length (content ++ rest) = .ok (content, rest) :=
    readBytes_exact content rest
  have hne : content.isEmpty = false := by
    cases content with
    | nil => simp at h1
    | cons a l => rfl
  have hgt : ¬ content.length > MAX_STRING_LENGTH_BYTES := by omega
  have hex : exceedsMaxLengthBytes content MAX_STRING_LENGTH_BYTES = false := by
    simp [exceedsMaxLengthBytes, hne, hgt]
  have hop : orDefault (some content.length) 1 = content.length := by
    have h0 : content.length ≠ 0 := by omega
    simp [orDefault, h0]
  have hop2 : orDefault none MAX_STRING_LENGTH_BYTES = MAX_STRING_LENGTH_BYTES := rfl
  rw [hs]
  simp [deserializeLPString, readBytes_one, bytesToNat_one, hr, Bind.bind, Except.bind,
    lengthPrefixedString, hex, hop, hop2]

theorem deserializeMemoString_append (content rest : List Nat)
    (h : content.length = MEMO_MAX_LENGTH_BYTES) :
    deserializeMemoString (content ++ rest) = .ok (⟨content⟩, rest) := by
  have hr : readBytes MEMO_MAX_LENGTH_BYTES (content ++ rest) = .ok (content, rest) := by
    rw [← h]; exact readBytes_exact content rest
  simp [deserializeMemoString, hr, Bind.bind, Except.bind]

theorem memo_roundtrip_padded (content : List Nat)
    (h : content.length ≤ MEMO_MAX_LENGTH_BYTES) :
    deserializeMemoString (serializeMemoString ⟨content⟩) =
      .ok (⟨rightPadBytesToLength content MEMO_MAX_LENGTH_BYTES⟩, []) := by
  have hl : (rightPadBytesToLength content MEMO_MAX_LENGTH_BYTES).length =
      MEMO_MAX_LENGTH_BYTES := by
    simp [rightPadBytesToLength]
    omega
  have h2 := deserializeMemoString_append
    (rightPadBytesToLength content MEMO_MAX_LENGTH_BYTES) [] hl
  rw [List.append_nil] at h2
  exact h2

/-! ### Claim theorems -/

/-- C1 (counterexample): deserializing the serialization of the valid
length-prefixed string "ab" (1-byte prefix, default maximum) yields a value
whose `lengthPrefixBytes` is 2 — the content byte length that the decoder
passes to the constructor — not the original configuration 1, so
`decode(encode(v)) = v` fails for LengthPrefixedString. -/
theorem c1_counterexample :
    deserializeLPString (serializeLPString ⟨[97, 98], 1, 128⟩) =
      .ok (⟨[97, 98], 2, 128⟩, []) ∧
    (⟨[97, 98], 2, 128⟩ : LengthPrefixedString) ≠ ⟨[97, 98], 1, 128⟩ := by
  exact ⟨rfl, by decide⟩

/-- C1 (amended): the round-trip that actually holds.  An Address (byte-sized
version, 20-byte hash) and a standard principal round-trip with exact field
equality; a LengthPrefixedString with 1-byte prefix and nonempty content within
the default maximum round-trips its content, but the decoder replaces
`lengthPrefixBytes` with the content byte length and resets the maximum to the
default; a memo round-trips its content only up to the zero padding, which the
decoder keeps. -/
theorem c1_roundtrip :
    (∀ a : Address, a.version < 256 → a.data.length = 20 →
      deserializeAddress (serializeAddress a) = .ok (a, [])) ∧
    (∀ a : Address, a.version < 256 → a.data.length = 20 →
      deserializePrincipal (serializePrincipal (.standard a)) = .ok (.standard a, [])) ∧
    (∀ content : List Nat, 0 < content.length → content.length ≤ MAX_STRING_LENGTH_BYTES →
      deserializeLPString (serializeLPString ⟨content, 1, MAX_STRING_LENGTH_BYTES⟩) =
        .ok (⟨content, content.length, MAX_STRING_LENGTH_BYTES⟩, [])) ∧
    (∀ content : List Nat, content.length ≤ MEMO_MAX_LENGTH_BYTES →
      deserializeMemoString (serializeMemoString ⟨content⟩) =
        .ok (⟨rightPadBytesToLength content MEMO_MAX_LENGTH_BYTES⟩, [])) := by
  refine ⟨?_, ?_, ?_, ?_⟩
  · intro a hv hd
    exact addr_roundtrip a hv hd
  · intro a hv hd
    have h1 := addr_roundtrip a hv hd
    simp [deserializePrincipal, serializePrincipal, readBytes_one, bytesToNat_one,
      Bind.bind, Except.bind, h1]
  · intro c h1 h2
    have h := deserializeLPString_append c [] MAX_STRING_LENGTH_BYTES h1 h2
    rw [List.append_nil] at h
    exact h
  · intro c h
    exact memo_roundtrip_padded c h

/-- C1 (witness): the amended round-trip at a concrete address and a concrete
two-byte string. -/
theorem c1_witness :
    deserializeAddress (serializeAddress ⟨22, List.replicate 20 0⟩) =
      .ok (⟨22, List.replicate 20 0⟩, []) ∧
    deserializeLPString (serializeLPString ⟨[97, 98], 1, MAX_STRING_LENGTH_BYTES⟩) =
      .ok (⟨[97, 98], 2, MAX_STRING_LENGTH_BYTES⟩, []) :=
  ⟨c1_roundtrip.1 ⟨22, List.replicate 20 0⟩ (by decide) (by decide),
   c1_roundtrip.2.2.1 [97, 98] (by decide) (by decide)⟩

/-- C2: evaluating `deserializeLengthPrefixedList` with a 4-byte count of 1,
element kind Address, and a buffer holding exactly one serialized address.
The claim says the result is the one decoded address; instead the switch falls
through past the Address case and tries to decode a length-prefixed string as
well, running off the end of the buffer. -/
theorem c2_list_fallthrough :
    deserializeLengthPrefixedList 4 .addressT
      ([0, 0, 0, 1] ++ (22 :: List.replicate 20 5)) = .error .unexpectedEof := by
  rfl

/-- C3: evaluating `smartContractPayload` on contract name "ab" and code body
"cd".  The resulting payload's `codeBody` holds the contract-name bytes
`[97, 98]`, not the code-body argument `[99, 100]`, because the source passes
`contractName` to `codeBodyString`. -/
theorem c3_smart_contract_codebody :
    smartContractPayload [97, 98] [99, 100] =
      .ok (.smartContract ⟨[97, 98], 1, 128⟩ ⟨[97, 98], 4, 100000⟩) := by
  rfl

/-- C4 (counterexample): encoding then decoding a TokenTransfer payload with a
concrete recipient, amount 1000 and an empty memo.  The decoded memo content is
the 34 zero padding bytes, not the empty string: the decoder keeps the full
fixed-width field. -/
theorem c4_counterexample :
    deserializeTokenTransferPayload
        (serializePayload (.tokenTransfer ⟨22, List.replicate 20 1⟩ 1000 ⟨[]⟩)) =
      .ok (.tokenTransfer ⟨22, List.replicate 20 1⟩ 1000
        ⟨List.replicate MEMO_MAX_LENGTH_BYTES 0⟩, []) ∧
    (List.replicate MEMO_MAX_LENGTH_BYTES 0 : List Nat) ≠ [] := by
  exact ⟨rfl, by decide⟩

/-- C4 (amended): for every recipient address (byte-sized version, 20-byte
hash), encoding a TokenTransfer payload with amount 1000 and the empty memo
produced by the constructor yields tag, 21-byte address, the 8 big-endian
amount bytes 00 00 00 00 00 00 03 E8, and `MEMO_MAX_LENGTH_BYTES` zero bytes;
decoding that buffer reproduces amount 1000 and a memo whose content is the
`MEMO_MAX_LENGTH_BYTES` zero bytes (the padding is not trimmed to the empty
string). -/
theorem c4_token_transfer (v : Nat) (d : List Nat) (hv : v < 256) (hd : d.length = 20) :
    memoString [] = .ok ⟨[]⟩ ∧
    serializePayload (.tokenTransfer ⟨v, d⟩ 1000 ⟨[]⟩) =
      PayloadTypeTokenTransfer :: ((v :: d) ++
        ([0, 0, 0, 0, 0, 0, 3, 232] ++ List.replicate MEMO_MAX_LENGTH_BYTES 0)) ∧
    deserializeTokenTransferPayload (serializePayload (.tokenTransfer ⟨v, d⟩ 1000 ⟨[]⟩)) =
      .ok (.tokenTransfer ⟨v, d⟩ 1000 ⟨List.replicate MEMO_MAX_LENGTH_BYTES 0⟩, []) := by
  have hA : serializeAddress ⟨v, d⟩ = v :: d := by
    simp [serializeAddress, natToBytesBE, Nat.mod_eq_of_lt hv]
  have h8 : natToBytesBE 8 1000 = [0, 0, 0, 0, 0, 0, 3, 232] := rfl
  have hM : serializeMemoString ⟨[]⟩ = List.replicate MEMO_MAX_LENGTH_BYTES 0 := rfl
  have hser : serializePayload (.tokenTransfer ⟨v, d⟩ 1000 ⟨[]⟩) =
      PayloadTypeTokenTransfer :: ((v :: d) ++
        ([0, 0, 0, 0, 0, 0, 3, 232] ++ List.replicate MEMO_MAX_LENGTH_BYTES 0)) := by
    simp [serializePayload, serializeStacksMessage, Option.getD, hA, h8, hM]
  refine ⟨rfl, hser, ?_⟩
  rw [hser]
  have hDA : deserializeAddress ((v :: d) ++
      ([0, 0, 0, 0, 0, 0, 3, 232] ++ List.replicate MEMO_MAX_LENGTH_BYTES 0)) =
      .ok (⟨v, d⟩, [0, 0, 0, 0, 0, 0, 3, 232] ++ List.replicate MEMO_MAX_LENGTH_BYTES 0) := by
    have h := deserializeAddress_append v d
      ([0, 0, 0, 0, 0, 0, 3, 232] ++ List.replicate MEMO_MAX_LENGTH_BYTES 0) hv hd
    rwa [hA] at h
  have h8r : readBytes 8
      ([0, 0, 0, 0, 0, 0, 3, 232] ++ List.replicate MEMO_MAX_LENGTH_BYTES 0) =
      .ok ([0, 0, 0, 0, 0, 0, 3, 232], List.replicate MEMO_MAX_LENGTH_BYTES 0) :=
    readBytes_exact [0, 0, 0, 0, 0, 0, 3, 232] (List.replicate MEMO_MAX_LENGTH_BYTES 0)
  have hamt : bytesToNat [0, 0, 0, 0, 0, 0, 3, 232] = 1000 := rfl
  have hmm : deserializeMemoString (List.replicate MEMO_MAX_LENGTH_BYTES 0) =
      .ok (⟨List.replicate MEMO_MAX_LENGTH_BYTES 0⟩, []) := by
    have h := deserializeMemoString_append (List.replicate MEMO_MAX_LENGTH_BYTES 0) []
      (by simp)
    rwa [List.append_nil] at h
  have hDA2 : deserializeAddress
      (v :: (d ++ 0 :: 0 :: 0 :: 0 :: 0 :: 0 :: 3 :: 232 ::
        List.replicate MEMO_MAX_LENGTH_BYTES 0)) =
      .ok (⟨v, d⟩, 0 :: 0 :: 0 :: 0 :: 0 :: 0 :: 3 :: 232 ::
        List.replicate MEMO_MAX_LENGTH_BYTES 0) := by
    simpa using hDA
  have h8r2 : readBytes 8 (0 :: 0 :: 0 :: 0 :: 0 :: 0 :: 3 :: 232 ::
      List.replicate MEMO_MAX_LENGTH_BYTES 0) =
      .ok ([0, 0, 0, 0, 0, 0, 3, 232], List.replicate MEMO_MAX_LENGTH_BYTES 0) := by
    simpa using h8r
  simp [deserializeTokenTransferPayload, readBytes_one, bytesToNat_one, hDA2, h8r2, hamt,
    hmm, Bind.bind, Except.bind, PayloadTypeTokenTransfer]

/-- C4 (witness): the amended statement at a concrete recipient address. -/
theorem c4_witness :
    serializePayload (.tokenTransfer ⟨22, List.replicate 20 1⟩ 1000 ⟨[]⟩) =
      PayloadTypeTokenTransfer :: ((22 :: List.replicate 20 1) ++
        ([0, 0, 0, 0, 0, 0, 3, 232] ++ List.replicate MEMO_MAX_LENGTH_BYTES 0)) :=
  (c4_token_transfer 22 (List.replicate 20 1) (by decide) (by decide)).2.1

/-- C5 (counterexample): content of byte length exactly equal to
`maxLengthBytes` is accepted by the constructor — `lengthPrefixedString` with
the two-byte content "ab" and maximum 2 succeeds — contradicting the claim that
construction fails whenever the encoded byte length is greater than or equal to
the maximum. -/
theorem c5_counterexample :
    lengthPrefixedString [97, 98] none (some 2) = .ok ⟨[97, 98], 1, 2⟩ := by
  rfl

/-- C5 (amended): for a nonzero maximum, the constructor fails with the
string-too-long error exactly when the content byte length is strictly greater
than `maxLengthBytes`; content of length equal to the maximum — and a fortiori
one byte shorter — is accepted. -/
theorem c5_lps_boundary (content : List Nat) (mx : Nat) (hmx : mx ≠ 0) :
    (content.length > mx →
      lengthPrefixedString content none (some mx) = .error .stringTooLong) ∧
    (content.length ≤ mx →
      lengthPrefixedString content none (some mx) = .ok ⟨content, 1, mx⟩) := by
  constructor
  · intro hgt
    have hne : content.isEmpty = false := by
      cases content with
      | nil => simp at hgt
      | cons a l => rfl
    have hex : exceedsMaxLengthBytes content mx = true := by
      simp [exceedsMaxLengthBytes, hne]
      omega
    simp [lengthPrefixedString, orDefault, hmx, hex]
  · intro hle
    have hex : exceedsMaxLengthBytes content mx = false := by
      have hn : ¬ content.length > mx := by omega
      simp [exceedsMaxLengthBytes, hn]
    simp [lengthPrefixedString, orDefault, hmx, hex]

/-- C5 (witness): the amended boundary at maximum 2 — three bytes rejected, one
byte accepted. -/
theorem c5_witness :
    lengthPrefixedString [97, 98, 99] none (some 2) = .error .stringTooLong ∧
    lengthPrefixedString [97] none (some 2) = .ok ⟨[97], 1, 2⟩ :=
  ⟨(c5_lps_boundary [97, 98, 99] 2 (by decide)).1 (by decide),
   (c5_lps_boundary [97] 2 (by decide)).2 (by decide)⟩

/-- C6: content of byte length exactly `MEMO_MAX_LENGTH_BYTES` is accepted by
the memo constructor and serializes to exactly `MEMO_MAX_LENGTH_BYTES` bytes
(the zero right-padding is empty); content one byte over is rejected. -/
theorem c6_memo_boundary (c c' : List Nat) (h : c.length = MEMO_MAX_LENGTH_BYTES)
    (h' : c'.length = MEMO_MAX_LENGTH_BYTES + 1) :
    memoString c = .ok ⟨c⟩ ∧ serializeMemoString ⟨c⟩ = c ∧
    (serializeMemoString ⟨c⟩).length = MEMO_MAX_LENGTH_BYTES ∧
    memoString c' = .error .memoTooLong := by
  have hne : c.isEmpty = false := by
    cases c with
    | nil => simp [MEMO_MAX_LENGTH_BYTES] at h
    | cons a l => rfl
  have hne' : c'.isEmpty = false := by
    cases c' with
    | nil => simp [MEMO_MAX_LENGTH_BYTES] at h'
    | cons a l => rfl
  have hex : exceedsMaxLengthBytes c MEMO_MAX_LENGTH_BYTES = false := by
    have hn : ¬ c.length > MEMO_MAX_LENGTH_BYTES := by omega
    simp [exceedsMaxLengthBytes, hn]
  have hex' : exceedsMaxLengthBytes c' MEMO_MAX_LENGTH_BYTES = true := by
    simp [exceedsMaxLengthBytes, hne']
    omega
  refine ⟨?_, ?_, ?_, ?_⟩
  · simp [memoString, hex]
  · simp [serializeMemoString, rightPadBytesToLength, h]
  · simp [serializeMemoString, rightPadBytesToLength, h]
  · simp [memoString, hne', hex']

/-- C6 (witness): the boundary at concrete memo contents of 34 and 35 bytes. -/
theorem c6_witness :
    memoString (List.replicate 34 7) = .ok ⟨List.replicate 34 7⟩ ∧
    memoString (List.replicate 35 7) = .error .memoTooLong :=
  ⟨(c6_memo_boundary (List.replicate 34 7) (List.replicate 35 7) (by decide) (by decide)).1,
   (c6_memo_boundary (List.replicate 34 7) (List.replicate 35 7)
     (by decide) (by decide)).2.2.2⟩

/-- C7: coinbase payload construction fails exactly when the buffer length
differs from `COINBASE_BUFFER_LENGTH_BYTES`, and serializing a valid coinbase
payload yields the one-byte kind tag followed by the raw buffer bytes,
unchanged. -/
theorem c7_coinbase (b : List Nat) :
    (b.length ≠ COINBASE_BUFFER_LENGTH_BYTES ↔
      coinbasePayload b = .error .coinbaseLength) ∧
    (b.length = COINBASE_BUFFER_LENGTH_BYTES →
      coinbasePayload b = .ok (.coinbase b) ∧
      serializePayload (.coinbase b) = PayloadTypeCoinbase :: b ∧
      (serializePayload (.coinbase b)).length = 1 + COINBASE_BUFFER_LENGTH_BYTES) := by
  constructor
  · constructor
    · intro h
      simp [coinbasePayload, h]
    · intro h hn
      simp [coinbasePayload, hn] at h
  · intro h
    refine ⟨by simp [coinbasePayload, h], rfl, ?_⟩
    simp [serializePayload, h]
    omega

/-- C7 (witness): a 31-byte buffer is rejected; a 32-byte buffer is accepted
and serializes to the tag plus its raw bytes. -/
theorem c7_witness :
    coinbasePayload (List.replicate 31 9) = .error .coinbaseLength ∧
    coinbasePayload (List.replicate 32 9) = .ok (.coinbase (List.replicate 32 9)) :=
  ⟨(c7_coinbase (List.replicate 31 9)).1.mp (by decide),
   ((c7_coinbase (List.replicate 32 9)).2 (by decide)).1⟩

/-- C8: the validation and dispatch behaviour of `fromPublicKeys`, for every
external hash routine.  An empty key set fails; the single-signature hash modes
(P2PKH, P2WPKH) fail unless exactly one key and exactly one required signature
are supplied; the witness hash modes (P2WPKH, P2WSH) fail when any supplied key
is uncompressed; and when all validations pass the call succeeds only for the
plain P2PKH mode, failing with the unsupported-hash-mode error for every other
mode. -/
theorem c8_from_public_keys (hashFn : List Nat → List Nat) (version numSigs : Nat)
    (hashMode : AddressHashMode) (keys : List StacksPublicKey) :
    (keys = [] →
      fromPublicKeys hashFn version hashMode numSigs keys = .error .emptyPublicKeys) ∧
    ((hashMode = .serializeP2PKH ∨ hashMode = .serializeP2WPKH) → keys ≠ [] →
      (keys.length ≠ 1 ∨ numSigs ≠ 1) →
      fromPublicKeys hashFn version hashMode numSigs keys =
        .error .invalidNumberOfKeysOrSigs) ∧
    ((hashMode = .serializeP2WPKH ∨ hashMode = .serializeP2WSH) →
      (∃ k ∈ keys, k.compressed = false) →
      ∃ e, fromPublicKeys hashFn version hashMode numSigs keys = .error e) ∧
    (keys ≠ [] →
      ((hashMode = .serializeP2PKH ∨ hashMode = .serializeP2WPKH) →
        keys.length = 1 ∧ numSigs = 1) →
      ((hashMode = .serializeP2WPKH ∨ hashMode = .serializeP2WSH) →
        ∀ k ∈ keys, k.compressed = true) →
      (hashMode = .serializeP2PKH →
        fromPublicKeys hashFn version hashMode numSigs keys =
          .ok ⟨version, hashFn (keys.headD ⟨[], false⟩).data⟩) ∧
      (hashMode ≠ .serializeP2PKH →
        fromPublicKeys hashFn version hashMode numSigs keys =
          .error .invalidHashMode)) := by
  refine ⟨?_, ?_, ?_, ?_⟩
  · intro h
    subst h
    rfl
  · intro hm hne hbad
    have h0 : ¬ keys.length = 0 := by
      simpa [List.length_eq_zero] using hne
    unfold fromPublicKeys
    rw [if_neg h0, if_pos ⟨hm, hbad⟩]
  · intro hm hex
    unfold fromPublicKeys
    by_cases h0 : keys.length = 0
    · rw [if_pos h0]
      exact ⟨_, rfl⟩
    · rw [if_neg h0]
      by_cases h1 : (hashMode = .serializeP2PKH ∨ hashMode = .serializeP2WPKH) ∧
          (keys.length ≠ 1 ∨ numSigs ≠ 1)
      · rw [if_pos h1]
        exact ⟨_, rfl⟩
      · rw [if_neg h1]
        have hany : keys.any (fun k => ! k.compressed) = true := by
          rcases hex with ⟨k, hk, hkc⟩
          exact List.any_eq_true.mpr ⟨k, hk, by simp [hkc]⟩
        rw [if_pos ⟨hm, hany⟩]
        exact ⟨_, rfl⟩
  · intro hne hsig hcomp
    have h0 : ¬ keys.length = 0 := by
      simpa [List.length_eq_zero] using hne
    constructor
    · intro hP
      subst hP
      have h1 : ¬ ((AddressHashMode.serializeP2PKH = AddressHashMode.serializeP2PKH ∨
          AddressHashMode.serializeP2PKH = AddressHashMode.serializeP2WPKH) ∧
          (keys.length ≠ 1 ∨ numSigs ≠ 1)) := by
        rintro ⟨-, hb⟩
        rcases hsig (Or.inl rfl) with ⟨hl, hs⟩
        rcases hb with hb | hb
        · exact hb hl
        · exact hb hs
      have h2 : ¬ ((AddressHashMode.serializeP2PKH = AddressHashMode.serializeP2WPKH ∨
          AddressHashMode.serializeP2PKH = AddressHashMode.serializeP2WSH) ∧
          keys.any (fun k => ! k.compressed) = true) := by
        rintro ⟨hor, -⟩
        rcases hor with h | h <;> exact absurd h (by decide)
      unfold fromPublicKeys
      rw [if_neg h0, if_neg h1, if_neg h2]
    · intro hnP
      have hanyF : (∀ k ∈ keys, k.compressed = true) →
          keys.any (fun k => ! k.compressed) = false := by
        intro hall
        rw [List.any_eq_false]
        intro k hk
        simp [hall k hk]
      cases hashMode with
      | serializeP2PKH => exact absurd rfl hnP
      | serializeP2SH =>
        have h1 : ¬ ((AddressHashMode.serializeP2SH = AddressHashMode.serializeP2PKH ∨
            AddressHashMode.serializeP2SH = AddressHashMode.serializeP2WPKH) ∧
            (keys.length ≠ 1 ∨ numSigs ≠ 1)) := by
          rintro ⟨hor, -⟩
          rcases hor with h | h <;> exact absurd h (by decide)
        have h2 : ¬ ((AddressHashMode.serializeP2SH = AddressHashMode.serializeP2WPKH ∨
            AddressHashMode.serializeP2SH = AddressHashMode.serializeP2WSH) ∧
            keys.any (fun k => ! k.compressed) = true) := by
          rintro ⟨hor, -⟩
          rcases hor with h | h <;> exact absurd h (by decide)
        unfold fromPublicKeys
        rw [if_neg h0, if_neg h1, if_neg h2]
      | serializeP2WPKH =>
        have h1 : ¬ ((AddressHashMode.serializeP2WPKH = AddressHashMode.serializeP2PKH ∨
            AddressHashMode.serializeP2WPKH = AddressHashMode.serializeP2WPKH) ∧
            (keys.length ≠ 1 ∨ numSigs ≠ 1)) := by
          rintro ⟨-, hb⟩
          rcases hsig (Or.inr rfl) with ⟨hl, hs⟩
          rcases hb with hb | hb
          · exact hb hl
          · exact hb hs
        have h2 : ¬ ((AddressHashMode.serializeP2WPKH = AddressHashMode.serializeP2WPKH ∨
            AddressHashMode.serializeP2WPKH = AddressHashMode.serializeP2WSH) ∧
            keys.any (fun k => ! k.compressed) = true) := by
          rintro ⟨-, hA⟩
          rw [hanyF (hcomp (Or.inl rfl))] at hA
          exact Bool.false_ne_true hA
        unfold fromPublicKeys
        rw [if_neg h0, if_neg h1, if_neg h2]
      | serializeP2WSH =>
        have h1 : ¬ ((AddressHashMode.serializeP2WSH = AddressHashMode.serializeP2PKH ∨
            AddressHashMode.serializeP2WSH = AddressHashMode.serializeP2WPKH) ∧
            (keys.length ≠ 1 ∨ numSigs ≠ 1)) := by
          rintro ⟨hor, -⟩
          rcases hor with h | h <;> exact absurd h (by decide)
        have h2 : ¬ ((AddressHashMode.serializeP2WSH = AddressHashMode.serializeP2WPKH ∨
            AddressHashMode.serializeP2WSH = AddressHashMode.serializeP2WSH) ∧
            keys.any (fun k => ! k.compressed) = true) := by
          rintro ⟨-, hA⟩
          rw [hanyF (hcomp (Or.inr rfl))] at hA
          exact Bool.false_ne_true hA
        unfold fromPublicKeys
        rw [if_neg h0, if_neg h1, if_neg h2]

/-- C8 (witness): a single compressed key under P2PKH succeeds; the same key
under P2SH passes validation but fails with the unsupported-hash-mode error;
an empty key set fails. -/
theorem c8_witness :
    fromPublicKeys (fun x => x) 22 .serializeP2PKH 1 [⟨[1], true⟩] = .ok ⟨22, [1]⟩ ∧
    fromPublicKeys (fun x => x) 22 .serializeP2SH 2 [⟨[1], true⟩] =
      .error .invalidHashMode ∧
    fromPublicKeys (fun x => x) 22 .serializeP2PKH 1 [] = .error .emptyPublicKeys :=
  ⟨((c8_from_public_keys (fun x => x) 22 1 .serializeP2PKH [⟨[1], true⟩]).2.2.2
      (by decide) (fun _ => ⟨rfl, rfl⟩)
      (by rintro (h | h) <;> exact absurd h (by decide))).1 rfl,
   ((c8_from_public_keys (fun x => x) 22 2 .serializeP2SH [⟨[1], true⟩]).2.2.2
      (by decide) (by rintro (h | h) <;> exact absurd h (by decide))
      (by rintro (h | h) <;> exact absurd h (by decide))).2 (by decide),
   (c8_from_public_keys (fun x => x) 22 1 .serializeP2PKH []).1 rfl⟩

/-- C9 (counterexample): serializing the PoisonMicroblock payload does not fail
— it returns the one-byte buffer holding only the kind tag, exactly the
zero-length-body wire form the claim says is not produced. -/
theorem c9_counterexample :
    serializePayload poisonPayload = [PayloadTypePoisonMicroblock] := by
  rfl

/-- C9 (amended): serializing a PoisonMicroblock payload does not raise a
not-implemented error; the source's TODO case silently emits the kind tag with
a zero-length body, one byte in total. -/
theorem c9_poison_tag_only :
    serializePayload poisonPayload = [PayloadTypePoisonMicroblock] ∧
    (serializePayload poisonPayload).length = 1 :=
  ⟨rfl, rfl⟩

/-- C10: every value produced by the `assetInfo` factory lacks the `type`
discriminant property, so `serializeStacksMessage` matches no dispatch case on
it and returns no buffer (`none`), whereas the same data with the discriminant
present would serialize to the AssetInfo wire form (address, contract name,
asset name). -/
theorem c10_asset_info_untagged (c32 : List Nat → Nat × List Nat) (a c n : List Nat)
    (m : StacksMessage) (h : assetInfo c32 a c n = .ok m) :
    serializeStacksMessage m = none ∧
    ∃ info : AssetInfoData, m = .assetMsg false info ∧
      serializeStacksMessage (.assetMsg true info) = some (serializeAssetInfo info) := by
  unfold assetInfo at h
  cases hc : lengthPrefixedString c none none with
  | error e =>
    rw [hc] at h
    simp [Bind.bind, Except.bind] at h
  | ok cn =>
    cases hn : lengthPrefixedString n none none with
    | error e =>
      rw [hc, hn] at h
      simp [Bind.bind, Except.bind] at h
    | ok an =>
      rw [hc, hn] at h
      simp [Bind.bind, Except.bind] at h
      subst h
      exact ⟨rfl, _, rfl, rfl⟩

/-- C10 (witness): the factory output at concrete inputs (with a stub external
address decoder) is an untagged AssetInfo record, and the dispatcher returns no
buffer for it. -/
theorem c10_witness :
    serializeStacksMessage (.assetMsg false
      ⟨⟨22, List.replicate 20 3⟩, ⟨[97], 1, 128⟩, ⟨[98], 1, 128⟩⟩) = none :=
  (c10_asset_info_untagged (fun _ => (22, List.replicate 20 3)) [1] [97] [98]
    (.assetMsg false ⟨⟨22, List.replicate 20 3⟩, ⟨[97], 1, 128⟩, ⟨[98], 1, 128⟩⟩) rfl).1
